import Mathlib

set_option maxRecDepth 100000

/-!
Verification of the RSS feed plugin (`rss.py`) for the LSTE static site
generator, against its natural-language specification.

The Python source is shallowly embedded:

* `stripChars` / `stripTags` embed `re.sub(r'<.*?>', '', excerpt)` from
  line 94 of the source: the regex engine repeatedly finds the leftmost
  `<`, lazily matches up to the nearest following `>` with `.` not
  matching a newline, and removes the match.  `stripGo` runs the scan on
  a fuel argument (always instantiated with the length of the input) so
  that the definition is structural and computable by `rfl`.
* `strptimeDMY` embeds `datetime.strptime(s, "%d.%m.%Y")` (line 96):
  day and month are one or two digits within range, the year is exactly
  four digits, separators are literal dots, no characters may remain,
  and the resulting calendar date must be valid (Python's `datetime`
  constructor validates the day against the month length).
* `strftimeRss` embeds `strftime('%a, %d %b %Y %H:%M:%S +0000')`
  (lines 66 and 97), with Sakamoto's algorithm for the day of the week.
* `generate_rss` and `save_rss_file` embed the two hook functions.
  Python dictionaries are association lists, attribute/key lookups that
  can raise `KeyError` return `Option`, and a raised exception is the
  `none` result of the whole computation (no partial effect is kept,
  matching the fact that the Python functions only mutate state after
  all lookups succeeded, respectively never write the file when the
  scratch lookup raises).  The current UTC instant `datetime.utcnow()`
  is an explicit `now` parameter.  The filesystem seen by
  `save_rss_file` is a map from path to file contents.
-/

/-- Scan for the closing `>` of a lazily matched tag: given the characters
following a `<`, return the characters after the nearest `>` if one occurs
before any newline (Python's `.` does not match a newline), else `none`. -/
def dropToClose : List Char → Option (List Char)
  | [] => none
  | c :: rest =>
    if c = '>' then some rest
    else if c = '\n' then none
    else dropToClose rest

/-- Fuelled scan of the tag-stripping pass `re.sub(r'<.*?>', '', s)`:
at each `<` that has a closing `>` on the same line, the lazily matched
tag is removed and scanning resumes after it; any other character is
kept.  The fuel only makes the recursion structural; it is always called
with fuel at least the length of the input. -/
def stripGo : Nat → List Char → List Char
  | _, [] => []
  | 0, s => s
  | n + 1, c :: rest =>
    if c = '<' then
      match dropToClose rest with
      | some rest2 => stripGo n rest2
      | none => c :: stripGo n rest
    else c :: stripGo n rest

/-- The tag-stripping pass on a list of characters. -/
def stripChars (s : List Char) : List Char := stripGo s.length s

/-- The tag-stripping pass `re.sub(r'<.*?>', '', s)` on strings
(source line 94). -/
def stripTags (s : String) : String := String.mk (stripChars s.data)

/-- Numeric value of a decimal digit character. -/
def digitVal (c : Char) : Nat := c.toNat - '0'.toNat

/-- Parse a one- or two-digit number, as Python's `strptime` directives
`%d` and `%m` do: two digits are consumed when available, one otherwise.
(Range checking happens afterwards; a two-digit token whose value is out
of range fails in Python as well, because the one-digit fallback would
leave the second digit in front of the literal dot.) -/
def parseNum2 : List Char → Option (Nat × List Char)
  | c1 :: c2 :: rest =>
    if c1.isDigit && c2.isDigit then
      some (digitVal c1 * 10 + digitVal c2, rest)
    else if c1.isDigit then some (digitVal c1, c2 :: rest)
    else none
  | [c1] => if c1.isDigit then some (digitVal c1, []) else none
  | [] => none

/-- Parse exactly four digits, as Python's `strptime` directive `%Y`. -/
def parseNum4 : List Char → Option (Nat × List Char)
  | a :: b :: c :: d :: rest =>
    if a.isDigit && b.isDigit && c.isDigit && d.isDigit then
      some (((digitVal a * 10 + digitVal b) * 10 + digitVal c) * 10
        + digitVal d, rest)
    else none
  | _ => none

/-- Expect a literal dot. -/
def parseDot : List Char → Option (List Char)
  | '.' :: rest => some rest
  | _ => none

/-- Gregorian leap-year rule, as used by Python's `datetime`. -/
def isLeapYear (y : Nat) : Bool :=
  y % 4 == 0 && (y % 100 != 0 || y % 400 == 0)

/-- Number of days in a month, as validated by Python's `datetime`. -/
def daysInMonth (y m : Nat) : Nat :=
  if m = 2 then (if isLeapYear y then 29 else 28)
  else if m = 4 ∨ m = 6 ∨ m = 9 ∨ m = 11 then 30
  else 31

/-- A Python `datetime` value (UTC, no timezone object). -/
structure PyDateTime where
  year : Nat
  month : Nat
  day : Nat
  hour : Nat
  minute : Nat
  second : Nat
deriving Repr, DecidableEq

/-- Embedding of `datetime.strptime(s, "%d.%m.%Y")` (source line 96):
day, dot, month, dot, four-digit year, nothing left over, all fields in
range and the day valid for the month, else a `ValueError` (`none`).
The parsed datetime is at midnight, since the format stores no
time of day. -/
def strptimeDMY (s : String) : Option PyDateTime :=
  Option.bind (parseNum2 s.data) fun p1 =>
  Option.bind (parseDot p1.2) fun r2 =>
  Option.bind (parseNum2 r2) fun p2 =>
  Option.bind (parseDot p2.2) fun r4 =>
  Option.bind (parseNum4 r4) fun p3 =>
  if p3.2 = [] ∧ 1 ≤ p1.1 ∧ p1.1 ≤ 31 ∧ 1 ≤ p2.1 ∧ p2.1 ≤ 12 ∧ 1 ≤ p3.1
      ∧ p1.1 ≤ daysInMonth p3.1 p2.1 then
    some ⟨p3.1, p2.1, p1.1, 0, 0, 0⟩
  else
    none

/-- Abbreviated weekday names of `strftime('%a')` in the C locale,
indexed with Sunday as 0. -/
def dowNames : List String := ["Sun", "Mon", "Tue", "Wed", "Thu", "Fri", "Sat"]

/-- Abbreviated month names of `strftime('%b')` in the C locale. -/
def monthNames : List String :=
  ["Jan", "Feb", "Mar", "Apr", "May", "Jun",
   "Jul", "Aug", "Sep", "Oct", "Nov", "Dec"]

/-- Month offsets of Sakamoto's day-of-the-week algorithm. -/
def sakamotoT : List Nat := [0, 3, 2, 5, 0, 3, 5, 1, 4, 6, 2, 4]

/-- Day of the week of a Gregorian date, 0 meaning Sunday. -/
def dayOfWeek (y m d : Nat) : Nat :=
  let y2 := if m < 3 then y - 1 else y
  (y2 + y2 / 4 - y2 / 100 + y2 / 400 + sakamotoT.getD (m - 1) 0 + d) % 7

/-- Zero-padded two-digit rendering, as `strftime` does for
`%d`, `%H`, `%M` and `%S`. -/
def pad2 (n : Nat) : String := if n < 10 then "0" ++ toString n else toString n

/-- Embedding of `strftime('%a, %d %b %Y %H:%M:%S +0000')`
(source lines 66 and 97): the RFC-822-style date rendering with the
offset fixed to the literal `+0000`. -/
def strftimeRss (dt : PyDateTime) : String :=
  dowNames.getD (dayOfWeek dt.year dt.month dt.day) "" ++ ", "
    ++ pad2 dt.day ++ " " ++ monthNames.getD (dt.month - 1) "" ++ " "
    ++ toString dt.year ++ " " ++ pad2 dt.hour ++ ":" ++ pad2 dt.minute
    ++ ":" ++ pad2 dt.second ++ " +0000"

/-- The fixed root element of the feed with its namespace declarations
(source line 69). -/
def rssOpen : String := "<rss xmlns:content=\"http://purl.org/rss/1.0/modules/content/\" xmlns:wfw=\"http://wellformedweb.org/CommentAPI/\" xmlns:dc=\"http://purl.org/dc/elements/1.1/\" xmlns:atom=\"http://www.w3.org/2005/Atom\" xmlns:sy=\"http://purl.org/rss/1.0/modules/syndication/\" xmlns:slash=\"http://purl.org/rss/1.0/modules/slash/\" version=\"2.0\">"

/-- The channel-level block of the feed: the f-string template of source
lines 70 to 89 with its interpolations made explicit (whitespace is
verbatim from the source). -/
def channelXml (title home_url description formatted_date language
    version contact author image : String) : String :=
  "\n        <channel>\n            <title>" ++ title ++ "</title>\n            "
  ++ ("<atom:link href=\"" ++ home_url
    ++ "/rss.xml\" rel=\"self\" type=\"application/rss+xml\"/>")
  ++ "\n            <link>" ++ home_url ++ "</link>\n            <description>"
  ++ description ++ "</description>\n            "
  ++ ("<lastBuildDate>" ++ formatted_date ++ "</lastBuildDate>")
  ++ "\n            <language>" ++ language ++ "</language>\n            "
  ++ ("<generator>LSTE " ++ version ++ "</generator>") ++ "\n            "
  ++ "<sy:updatePeriod>hourly</sy:updatePeriod>" ++ "\n            "
  ++ "<sy:updateFrequency>1</sy:updateFrequency>" ++ "\n            "
  ++ ("<managingEditor>" ++ contact ++ " (" ++ author ++ ")</managingEditor>")
  ++ "\n            "
  ++ ("<webMaster>" ++ contact ++ " (" ++ author ++ ")</webMaster>")
  ++ "\n            "
  ++ ("<image>\n                <url>" ++ image
    ++ "</url>\n                <title>" ++ title
    ++ "</title>\n                <link>" ++ home_url
    ++ "</link>\n                <width>32</width>\n                <height>32</height>\n            </image>")

/-- One item block of the feed: the f-string template of source lines
99 to 110 with its interpolations made explicit (whitespace is verbatim
from the source). -/
def itemXml (home_url contact author title permalink formatted_date
    excerpt_stripped : String) : String :=
  "\n            <item>\n                <title>" ++ title
  ++ "</title>\n                "
  ++ ("<link>" ++ home_url ++ "/" ++ permalink ++ "</link>")
  ++ "\n                "
  ++ ("<pubDate>" ++ formatted_date ++ "</pubDate>")
  ++ "\n                <author>" ++ contact ++ " (" ++ author
  ++ ")</author>\n                "
  ++ ("<guid isPermaLink=\"true\">" ++ home_url ++ "/" ++ permalink
    ++ "</guid>")
  ++ "\n                "
  ++ ("<description>" ++ excerpt_stripped ++ "</description>")
  ++ "\n                <content:encoded>\n                    <![CDATA[ "
  ++ excerpt_stripped
  ++ " ]]>\n                </content:encoded>\n            </item>"

/-- One content item of the host's content store: a dictionary with the
string-valued entries used by the plugin (`title`, `excerpt`) and the
nested `meta` dictionary (`date`, `permalink`). -/
structure ContentItem where
  fields : List (String × String)
  meta : List (String × String)
deriving Repr, DecidableEq

/-- The host's configuration file: the `lste` section and `rss` section,
each a dictionary of string settings. -/
structure ConfigFile where
  lste : List (String × String)
  rss : List (String × String)
deriving Repr, DecidableEq

/-- The host context object handed to the hooks.  `articles` is the
ordered article index `lste.plugin_vars['articles']['articles']`, and
`plugin_vars_rss` the scratch slot `lste.plugin_vars['rss']` (absent
before the builder ran). -/
structure Lste where
  version : String
  config_file : ConfigFile
  content : List (String × ContentItem)
  articles : List String
  plugin_vars_rss : Option String
  dist_path : String
deriving Repr, DecidableEq

/-- Body of the per-article loop (source lines 92 to 110): look the
article up in the content store, strip the excerpt, parse and re-render
the date, and fill the item template.  Any missing key or unparseable
date raises, i.e. returns `none`. -/
def renderItem (home_url contact author : String)
    (store : List (String × ContentItem)) (article : String) :
    Option String :=
  Option.bind (List.lookup article store) fun content =>
  Option.bind (List.lookup "excerpt" content.fields) fun excerpt =>
  Option.bind (List.lookup "date" content.meta) fun dateStr =>
  Option.bind (strptimeDMY dateStr) fun date_obj =>
  Option.bind (List.lookup "title" content.fields) fun title =>
  Option.bind (List.lookup "permalink" content.meta) fun permalink =>
  some (itemXml home_url contact author title permalink
    (strftimeRss date_obj) (stripTags excerpt))

/-- The article loop of `generate_rss`: concatenates one item block per
index entry, in order, failing as the Python loop does as soon as one
article raises. -/
def renderItems (home_url contact author : String)
    (store : List (String × ContentItem)) : List String → Option String
  | [] => some ""
  | a :: rest =>
    Option.bind (renderItem home_url contact author store a) fun block =>
    Option.bind (renderItems home_url contact author store rest) fun restStr =>
    some (block ++ restStr)

/-- Embedding of `generate_rss` (source lines 37 to 116): read the
configuration, render the channel block with the current UTC time
`now`, render one item per article-index entry, and store the finished
document in the scratch slot of the returned context.  A missing
configuration key, missing article, missing item field or malformed
date raises (`none`) and nothing is stored. -/
def generate_rss (now : PyDateTime) (lste : Lste) : Option Lste :=
  Option.bind (List.lookup "title" lste.config_file.lste) fun title =>
  Option.bind (List.lookup "description" lste.config_file.lste)
    fun description =>
  Option.bind (List.lookup "home_url" lste.config_file.rss) fun home_url =>
  Option.bind (List.lookup "language" lste.config_file.rss) fun language =>
  Option.bind (List.lookup "contact" lste.config_file.rss) fun contact =>
  Option.bind (List.lookup "author" lste.config_file.rss) fun author =>
  Option.bind (List.lookup "image" lste.config_file.rss) fun image =>
  Option.bind (renderItems home_url contact author lste.content
    lste.articles) fun items =>
  some { lste with plugin_vars_rss := some (rssOpen
    ++ channelXml title home_url description (strftimeRss now) language
      lste.version contact author image
    ++ items ++ "</channel></rss>") }

/-- A filesystem, as far as the writer observes it: contents by path. -/
def FileSystem : Type := String → Option String

/-- Embedding of `save_rss_file` (source lines 118 to 139): read the
scratch slot (a missing slot raises a `KeyError` before the file is
opened, so the filesystem is untouched), then write the string verbatim
to `feed.xml` in the distribution directory, replacing any previous
contents of that path. -/
def save_rss_file (lste : Lste) (fs : FileSystem) :
    Option (Lste × FileSystem) :=
  Option.bind lste.plugin_vars_rss fun feed_content =>
  some (lste, fun p =>
    if p = lste.dist_path ++ "/feed.xml" then some feed_content else fs p)

/-- Concatenation of a list of strings, front to back. -/
def concatAll (l : List String) : String := l.foldr (fun a b => a ++ b) ""

/-- The substring relation used throughout: `needle` occurs contiguously
inside `hay`. -/
def occursIn (needle hay : String) : Prop := needle.data <:+: hay.data

instance (n h : String) : Decidable (occursIn n h) := by
  unfold occursIn
  infer_instance

/-- Element-wise traversal: one output per input, in order, failing iff
some element fails.  Used to state that the item loop of the feed builder
is exactly a per-index-entry map. -/
def mapOption (f : α → Option β) : List α → Option (List β)
  | [] => some []
  | a :: rest =>
    Option.bind (f a) fun b =>
    Option.bind (mapOption f rest) fun bs =>
    some (b :: bs)

/-- Number of (possibly overlapping) occurrences of a pattern in a list;
for patterns such as the literal `<item>` that cannot overlap themselves
this is the plain occurrence count. -/
def countOccur (needle : List Char) : List Char → Nat
  | [] => 0
  | c :: rest =>
    (if needle.isPrefixOf (c :: rest) then 1 else 0) + countOccur needle rest

/-- The site configuration named in the specification's test scenario. -/
def exampleConfig : ConfigFile :=
  { lste := [("title", "My Site"), ("description", "Desc")]
    rss := [("home_url", "https://example.com"), ("language", "en-us"),
            ("contact", "a@b.com"), ("author", "A"),
            ("image", "https://example.com/i.png")] }

/-- The single content item of the specification's test scenario. -/
def exampleItem : ContentItem :=
  { fields := [("title", "Hello"), ("excerpt", "<p>World</p>")]
    meta := [("date", "01.02.2024"), ("permalink", "hello")] }

/-- A host context holding the specification's test scenario. -/
def exampleLste : Lste :=
  { version := "1.2"
    config_file := exampleConfig
    content := [("hello", exampleItem)]
    articles := ["hello"]
    plugin_vars_rss := none
    dist_path := "/srv/site/dist" }

/-- An arbitrary build instant (a Saturday) used to exercise the builder. -/
def exampleNow : PyDateTime := ⟨2025, 6, 7, 8, 9, 10⟩

/-- The one item block the test scenario must produce. -/
def exampleItemBlock : String :=
  itemXml "https://example.com" "a@b.com" "A" "Hello" "hello"
    "Thu, 01 Feb 2024 00:00:00 +0000" "World"

/-- The full feed document of the test scenario, as a function of the
build instant. -/
def exampleFeed (now : PyDateTime) : String :=
  rssOpen
  ++ channelXml "My Site" "https://example.com" "Desc" (strftimeRss now)
      "en-us" "1.2" "a@b.com" "A" "https://example.com/i.png"
  ++ exampleItemBlock ++ "</channel></rss>"

/-- The test scenario with the `title` configuration key removed. -/
def missingTitleLste : Lste :=
  { exampleLste with config_file :=
    { lste := [("description", "Desc")], rss := exampleConfig.rss } }

/-- The test scenario with the item date in ISO style instead of the
`day.month.year` format. -/
def badDateLste : Lste :=
  { exampleLste with content := [("hello",
    { fields := exampleItem.fields
      meta := [("date", "2024-02-01"), ("permalink", "hello")] })] }

/-- Executable substring scan, used to evaluate `occursIn` on large
concrete documents without deep proof terms. -/
def hasSub (needle : List Char) : List Char → Bool
  | [] => needle.isEmpty
  | c :: rest => needle.isPrefixOf (c :: rest) || hasSub needle rest

/-- The test scenario context with a feed string already in the scratch
slot, as `save_rss_file` expects to find it. -/
def savedLste : Lste := { exampleLste with plugin_vars_rss := some "FEED-A" }

/-- The context that the builder returns on the test scenario. -/
def builtLste : Lste :=
  { exampleLste with plugin_vars_rss := some (exampleFeed exampleNow) }

/-- One step of `dropToClose` consumes at least one character. -/
theorem dropToClose_length {s t : List Char} (h : dropToClose s = some t) :
    t.length < s.length := by
  induction s with
  | nil => simp [dropToClose] at h
  | cons c rest ih =>
    simp only [dropToClose] at h
    split at h
    · cases h
      exact Nat.lt_succ_self _
    · split at h
      · cases h
      · exact Nat.lt_trans (ih h) (Nat.lt_succ_self _)

/-- The fuel of `stripGo` is irrelevant once it covers the input length. -/
theorem stripGo_fuel {n m : Nat} {s : List Char} (hn : s.length ≤ n)
    (hm : s.length ≤ m) : stripGo n s = stripGo m s := by
  induction n generalizing s m with
  | zero =>
    have : s = [] := List.length_eq_zero.mp (Nat.le_zero.mp hn)
    subst this
    cases m <;> rfl
  | succ n ih =>
    cases s with
    | nil => cases m <;> rfl
    | cons c rest =>
      cases m with
      | zero => simp at hm
      | succ m =>
        simp only [stripGo]
        have hrest : rest.length ≤ n := Nat.le_of_succ_le_succ (by simpa using hn)
        have hrest' : rest.length ≤ m := Nat.le_of_succ_le_succ (by simpa using hm)
        split
        · cases hd : dropToClose rest with
          | some rest2 =>
            have h2 := dropToClose_length hd
            exact ih (Nat.le_trans (Nat.le_of_lt h2) hrest)
              (Nat.le_trans (Nat.le_of_lt h2) hrest')
          | none => rw [ih hrest hrest']
        · rw [ih hrest hrest']

/-- Stripping never lengthens the input. -/
theorem stripGo_length {n : Nat} {s : List Char} (hn : s.length ≤ n) :
    (stripGo n s).length ≤ s.length := by
  induction n generalizing s with
  | zero =>
    have : s = [] := List.length_eq_zero.mp (Nat.le_zero.mp hn)
    subst this
    simp [stripGo]
  | succ n ih =>
    cases s with
    | nil => simp [stripGo]
    | cons c rest =>
      have hrest : rest.length ≤ n := Nat.le_of_succ_le_succ (by simpa using hn)
      simp only [stripGo]
      split
      · cases hd : dropToClose rest with
        | some rest2 =>
          have h2 := dropToClose_length hd
          exact Nat.le_trans (ih (Nat.le_trans (Nat.le_of_lt h2) hrest))
            (Nat.le_trans (Nat.le_of_lt h2) (Nat.le_succ_of_le (Nat.le_refl _)))
        | none => simpa using Nat.succ_le_succ (ih hrest)
      · simpa using Nat.succ_le_succ (ih hrest)

/-- If no `>` occurs before a newline, the same holds after stripping. -/
theorem dropToClose_stripGo {n : Nat} {s : List Char}
    (h : dropToClose s = none) (hn : s.length ≤ n) :
    dropToClose (stripGo n s) = none := by
  induction n generalizing s with
  | zero =>
    have : s = [] := List.length_eq_zero.mp (Nat.le_zero.mp hn)
    subst this
    simp [stripGo, dropToClose]
  | succ n ih =>
    cases s with
    | nil => simp [stripGo, dropToClose]
    | cons c rest =>
      have hrest : rest.length ≤ n := Nat.le_of_succ_le_succ (by simpa using hn)
      simp only [dropToClose] at h
      split at h
      · cases h
      · split at h
        · rename_i hgt hnl
          simp only [stripGo]
          rw [if_neg (by rw [hnl]; decide)]
          simp [dropToClose, hnl]
        · rename_i hgt hnl
          simp only [stripGo]
          split
          · rename_i hlt
            rw [h]
            simp [dropToClose, hlt, hgt, hnl, ih h hrest]
          · rename_i hlt
            simp [dropToClose, hgt, hnl, ih h hrest]

/-- Core idempotence of the fuelled scan. -/
theorem stripGo_idem {n : Nat} {s : List Char} (hn : s.length ≤ n)
    {m : Nat} (hm : (stripGo n s).length ≤ m) :
    stripGo m (stripGo n s) = stripGo n s := by
  induction n generalizing s m with
  | zero =>
    have : s = [] := List.length_eq_zero.mp (Nat.le_zero.mp hn)
    subst this
    cases m <;> rfl
  | succ n ih =>
    cases s with
    | nil => cases m <;> rfl
    | cons c rest =>
      have hrest : rest.length ≤ n := Nat.le_of_succ_le_succ (by simpa using hn)
      by_cases hc : c = '<'
      · subst hc
        cases hd : dropToClose rest with
        | some rest2 =>
          have h2 := dropToClose_length hd
          have hr2 : rest2.length ≤ n := Nat.le_trans (Nat.le_of_lt h2) hrest
          rw [show stripGo (n + 1) ('<' :: rest) = stripGo n rest2 by
            simp [stripGo, hd]] at hm ⊢
          exact ih hr2 hm
        | none =>
          rw [show stripGo (n + 1) ('<' :: rest) = '<' :: stripGo n rest by
            simp [stripGo, hd]] at hm ⊢
          cases m with
          | zero => simp at hm
          | succ m =>
            have hm' : (stripGo n rest).length ≤ m :=
              Nat.le_of_succ_le_succ (by simpa using hm)
            have hd2 : dropToClose (stripGo n rest) = none :=
              dropToClose_stripGo hd hrest
            simp [stripGo, hd2, ih hrest hm']
      · rw [show stripGo (n + 1) (c :: rest) = c :: stripGo n rest by
          simp [stripGo, hc]] at hm ⊢
        cases m with
        | zero => simp at hm
        | succ m =>
          have hm' : (stripGo n rest).length ≤ m :=
            Nat.le_of_succ_le_succ (by simpa using hm)
          simp [stripGo, hc, ih hrest hm']

/-- A block that contains a newline before any `>` prevents a close from
being found, whatever follows it. -/
theorem dropToClose_append_none {m : List Char} (hgt : '>' ∉ m)
    (hnl : '\n' ∈ m) (r : List Char) : dropToClose (m ++ r) = none := by
  induction m with
  | nil => cases hnl
  | cons c rest ih =>
    have hc : c ≠ '>' := fun h => hgt (h ▸ List.mem_cons_self c rest)
    by_cases hn : c = '\n'
    · simp [dropToClose, hc, hn]
    · have : '\n' ∈ rest := by
        cases List.mem_cons.mp hnl with
        | inl h => exact absurd h.symm hn
        | inr h => exact h
      simp [dropToClose, hc, hn,
        ih (fun h => hgt (List.mem_cons_of_mem c h)) this]

/-- Characters that are not `<` pass through the scan untouched. -/
theorem stripGo_append_of_no_open {m : List Char} (hlt : '<' ∉ m) :
    ∀ {n : Nat} (r : List Char), (m ++ r).length ≤ n →
      stripGo n (m ++ r) = m ++ stripGo (n - m.length) r := by
  induction m with
  | nil => intro n r h; simp
  | cons c rest ih =>
    intro n r h
    cases n with
    | zero => simp at h
    | succ n =>
      have hc : c ≠ '<' := fun hx => hlt (hx ▸ List.mem_cons_self c rest)
      have hlen : (rest ++ r).length ≤ n := by
        simpa using Nat.le_of_succ_le_succ (by simpa using h)
      simp only [List.cons_append, stripGo, if_neg hc]
      show c :: stripGo n (rest ++ r)
        = c :: (rest ++ stripGo (n + 1 - (c :: rest).length) r)
      rw [ih (fun h => hlt (List.mem_cons_of_mem c h)) r hlen]
      simp [Nat.succ_sub_succ]

/-- Scanning for a close through a prefix `a` of a multi-line tag either
fails or stops inside `a`, leaving the tag and everything after intact. -/
theorem dropToClose_append_tag {m : List Char} (hgt : '>' ∉ m)
    (hnl : '\n' ∈ m) :
    ∀ (a : List Char) {b r : List Char},
      dropToClose (a ++ '<' :: (m ++ '>' :: b)) = some r →
      ∃ a2, r = a2 ++ '<' :: (m ++ '>' :: b) ∧ a2.length ≤ a.length := by
  intro a
  induction a with
  | nil =>
    intro b r h
    rw [List.nil_append] at h
    have : dropToClose ('<' :: (m ++ '>' :: b)) = none := by
      have hm : dropToClose (m ++ '>' :: b) = none :=
        dropToClose_append_none hgt hnl _
      simp [dropToClose, hm]
    rw [this] at h
    cases h
  | cons c a2 ih =>
    intro b r h
    simp only [List.cons_append, dropToClose] at h
    split at h
    · cases h
      exact ⟨a2, rfl, Nat.le_succ _⟩
    · split at h
      · cases h
      · obtain ⟨a3, hr, hlen⟩ := ih h
        exact ⟨a3, hr, Nat.le_succ_of_le hlen⟩

/-- A tag whose text has a newline before its closing `>` and contains
neither `>` nor a nested `<` survives the stripping scan verbatim. -/
theorem stripGo_multiline_tag {m : List Char} (hnl : '\n' ∈ m)
    (hgt : '>' ∉ m) (hlt : '<' ∉ m) :
    ∀ (n : Nat) (a b : List Char), (a ++ '<' :: (m ++ '>' :: b)).length ≤ n →
      ('<' :: (m ++ ['>'])) <:+: stripGo n (a ++ '<' :: (m ++ '>' :: b)) := by
  intro n
  induction n with
  | zero =>
    intro a b h
    simp [List.length_append] at h
  | succ n ih =>
    intro a b h
    cases a with
    | nil =>
      rw [List.nil_append] at h ⊢
      have hm : dropToClose (m ++ '>' :: b) = none :=
        dropToClose_append_none hgt hnl _
      have hlen : (m ++ '>' :: b).length ≤ n :=
        Nat.le_of_succ_le_succ (by simpa using h)
      have hk : m.length + (1 + b.length) ≤ n := by
        simp [List.length_append] at hlen
        omega
      simp only [stripGo, if_pos rfl, hm]
      rw [stripGo_append_of_no_open hlt _ hlen]
      have hk2 : 1 ≤ n - m.length := by omega
      obtain ⟨k, hkeq⟩ : ∃ k, n - m.length = k + 1 :=
        ⟨n - m.length - 1, by omega⟩
      rw [hkeq]
      have : stripGo (k + 1) ('>' :: b) = '>' :: stripGo k b := by
        simp [stripGo]
      rw [this]
      exact ⟨[], stripGo k b, by simp⟩
    | cons c a2 =>
      have hlen : (a2 ++ '<' :: (m ++ '>' :: b)).length ≤ n :=
        Nat.le_of_succ_le_succ (by simpa using h)
      by_cases hc : c = '<'
      · subst hc
        rw [List.cons_append]
        cases hd : dropToClose (a2 ++ '<' :: (m ++ '>' :: b)) with
        | some r =>
          obtain ⟨a3, hr, ha3⟩ := dropToClose_append_tag hgt hnl a2 hd
          have hrlen : r.length ≤ n :=
            Nat.le_trans (Nat.le_of_lt (dropToClose_length hd)) hlen
          have := ih a3 b (by rw [← hr]; exact hrlen)
          simpa [stripGo, hd, hr] using this
        | none =>
          have := ih a2 b hlen
          refine List.IsInfix.trans this ?_
          simp only [stripGo, if_pos rfl, hd]
          exact ⟨['<'], [], by simp⟩
      · rw [List.cons_append]
        have := ih a2 b hlen
        refine List.IsInfix.trans this ?_
        simp only [stripGo, if_neg hc]
        exact ⟨[c], [], by simp⟩

theorem occursIn_refl (s : String) : occursIn s s :=
  ⟨[], [], by simp⟩

theorem occursIn_append_left {n a : String} (h : occursIn n a)
    (b : String) : occursIn n (a ++ b) := by
  unfold occursIn at h ⊢
  rw [String.data_append]
  exact h.trans ⟨[], b.data, by simp⟩

theorem occursIn_append_right (a : String) {n b : String}
    (h : occursIn n b) : occursIn n (a ++ b) := by
  unfold occursIn at h ⊢
  rw [String.data_append]
  exact h.trans ⟨a.data, [], by simp⟩

theorem mapOption_length {f : α → Option β} :
    ∀ {l : List α} {bs : List β}, mapOption f l = some bs →
      bs.length = l.length := by
  intro l
  induction l with
  | nil => intro bs h; cases h; rfl
  | cons a rest ih =>
    intro bs h
    simp only [mapOption, Option.bind_eq_some, Option.some.injEq] at h
    obtain ⟨b, _, bs2, hbs2, rfl⟩ := h
    simp [ih hbs2]

theorem mapOption_none {f : α → Option β} {a : α} :
    ∀ {l : List α}, a ∈ l → f a = none → mapOption f l = none := by
  intro l
  induction l with
  | nil => intro h; cases h
  | cons b rest ih =>
    intro hmem hfa
    cases List.mem_cons.mp hmem with
    | inl h => subst h; simp [mapOption, hfa]
    | inr h =>
      cases hfb : f b with
      | none => simp [mapOption, hfb]
      | some v => simp [mapOption, hfb, ih h hfa]

/-- The sequential item loop is the map over the article index followed
by concatenation. -/
theorem renderItems_eq_mapOption (home_url contact author : String)
    (store : List (String × ContentItem)) :
    ∀ arts : List String,
      renderItems home_url contact author store arts
        = (mapOption (renderItem home_url contact author store) arts).map
            concatAll := by
  intro arts
  induction arts with
  | nil => rfl
  | cons a rest ih =>
    simp only [renderItems, mapOption, ih]
    cases renderItem home_url contact author store a with
    | none => rfl
    | some b =>
      cases mapOption (renderItem home_url contact author store) rest with
      | none => rfl
      | some bs => rfl

/-- C1: for every article index, the feed document produced by
`generate_rss` is the channel block followed by the concatenation of
exactly one item block per identifier in the index (`mapOption` over
the index), in index order, with no deduplication, filtering or
re-sorting; an empty index yields the channel block and zero item
blocks. -/
theorem generate_rss_one_item_per_index_entry
    (now : PyDateTime) (lste : Lste)
    (title description home_url language contact author image : String)
    (blocks : List String)
    (h1 : List.lookup "title" lste.config_file.lste = some title)
    (h2 : List.lookup "description" lste.config_file.lste = some description)
    (h3 : List.lookup "home_url" lste.config_file.rss = some home_url)
    (h4 : List.lookup "language" lste.config_file.rss = some language)
    (h5 : List.lookup "contact" lste.config_file.rss = some contact)
    (h6 : List.lookup "author" lste.config_file.rss = some author)
    (h7 : List.lookup "image" lste.config_file.rss = some image)
    (h8 : mapOption (renderItem home_url contact author lste.content)
        lste.articles = some blocks) :
    generate_rss now lste = some { lste with plugin_vars_rss := some (rssOpen
      ++ channelXml title home_url description (strftimeRss now) language
        lste.version contact author image
      ++ concatAll blocks ++ "</channel></rss>") }
    ∧ blocks.length = lste.articles.length
    ∧ (lste.articles = [] →
      generate_rss now lste = some { lste with plugin_vars_rss := some (rssOpen
        ++ channelXml title home_url description (strftimeRss now) language
          lste.version contact author image
        ++ "</channel></rss>") }) := by
  have hitems : renderItems home_url contact author lste.content lste.articles
      = some (concatAll blocks) := by
    rw [renderItems_eq_mapOption, h8]
    rfl
  refine ⟨?_, mapOption_length h8, ?_⟩
  · simp [generate_rss, h1, h2, h3, h4, h5, h6, h7, hitems]
  · intro hempty
    have hblocks : blocks = [] := by
      rw [hempty] at h8
      simp only [mapOption, Option.some.injEq] at h8
      exact h8.symm
    subst hblocks
    simp [generate_rss, h1, h2, h3, h4, h5, h6, h7, hitems, concatAll]

/-- Witness for C1 at the concrete test scenario. -/
theorem generate_rss_one_item_per_index_entry_witness :
    generate_rss exampleNow exampleLste
      = some { exampleLste with plugin_vars_rss := some (rssOpen
        ++ channelXml "My Site" "https://example.com" "Desc"
          (strftimeRss exampleNow) "en-us" "1.2" "a@b.com" "A"
          "https://example.com/i.png"
        ++ concatAll [exampleItemBlock] ++ "</channel></rss>") }
    ∧ [exampleItemBlock].length = exampleLste.articles.length
    ∧ (exampleLste.articles = [] →
      generate_rss exampleNow exampleLste
        = some { exampleLste with plugin_vars_rss := some (rssOpen
          ++ channelXml "My Site" "https://example.com" "Desc"
            (strftimeRss exampleNow) "en-us" "1.2" "a@b.com" "A"
            "https://example.com/i.png"
          ++ "</channel></rss>") }) :=
  generate_rss_one_item_per_index_entry exampleNow exampleLste
    "My Site" "Desc" "https://example.com" "en-us" "a@b.com" "A"
    "https://example.com/i.png" [exampleItemBlock]
    rfl rfl rfl rfl rfl rfl rfl rfl

/-- C2: on the specification's concrete scenario the builder produces
the channel block followed by exactly one item block whose link and
guid are `https://example.com/hello`, whose pubDate is
`Thu, 01 Feb 2024 00:00:00 +0000` (midnight), and whose description is
`World` (tags stripped), whatever the build instant. -/
theorem generate_rss_example_scenario :
    (∀ now : PyDateTime,
      generate_rss now exampleLste
        = some { exampleLste with plugin_vars_rss := some (exampleFeed now) })
    ∧ exampleItemBlock
      = itemXml "https://example.com" "a@b.com" "A" "Hello" "hello"
          "Thu, 01 Feb 2024 00:00:00 +0000" "World"
    ∧ occursIn "<link>https://example.com/hello</link>" exampleItemBlock
    ∧ occursIn "<guid isPermaLink=\"true\">https://example.com/hello</guid>"
        exampleItemBlock
    ∧ occursIn "<pubDate>Thu, 01 Feb 2024 00:00:00 +0000</pubDate>"
        exampleItemBlock
    ∧ occursIn "<description>World</description>" exampleItemBlock
    ∧ countOccur "<item>".data (exampleFeed exampleNow).data = 1
    ∧ countOccur "</item>".data (exampleFeed exampleNow).data = 1 := by
  refine ⟨fun now => ?_, rfl, by decide, by decide, by decide, by decide,
    by decide, by decide⟩
  rfl

/-- C7: the tag-stripping pass is idempotent; stripping a second time
changes nothing. -/
theorem stripTags_idempotent (s : String) :
    stripTags (stripTags s) = stripTags s :=
  congrArg String.mk (stripGo_idem (Nat.le_refl _) (Nat.le_refl _))

/-- C10 (amended): a tag whose text contains a newline between its `<`
and its closing `>` and contains neither `>` nor a nested `<` is not
removed by the tag-stripping pass: it survives verbatim into the
stripped excerpt, which is the text placed in the item description and
literal-content block.  (The claim without the no-nested-`<` condition
is refuted by the counterexample below.) -/
theorem stripTags_keeps_multiline_tag (excerpt : String)
    (a m b : List Char) (hx : excerpt.data = a ++ '<' :: (m ++ '>' :: b))
    (hnl : '\n' ∈ m) (hgt : '>' ∉ m) (hlt : '<' ∉ m) :
    ('<' :: (m ++ ['>'])) <:+: (stripTags excerpt).data := by
  show ('<' :: (m ++ ['>'])) <:+: stripChars excerpt.data
  rw [hx]
  exact stripGo_multiline_tag hnl hgt hlt _ a b (Nat.le_refl _)

/-- Witness for the amended C10: in `x<i>y<q\nr>z<j>` the one-line tags
are removed but the tag `<q\nr>` spanning a newline survives verbatim. -/
theorem stripTags_keeps_multiline_tag_witness :
    "x<i>y<q\nr>z<j>".data
        = ['x', '<', 'i', '>', 'y']
          ++ '<' :: (['q', '\n', 'r'] ++ '>' :: ['z', '<', 'j', '>'])
      ∧ '\n' ∈ ['q', '\n', 'r'] ∧ '>' ∉ ['q', '\n', 'r']
      ∧ '<' ∉ ['q', '\n', 'r']
      ∧ ('<' :: (['q', '\n', 'r'] ++ ['>']))
          <:+: (stripTags "x<i>y<q\nr>z<j>").data :=
  ⟨by decide, by decide, by decide, by decide,
    stripTags_keeps_multiline_tag "x<i>y<q\nr>z<j>"
      ['x', '<', 'i', '>', 'y'] ['q', '\n', 'r'] ['z', '<', 'j', '>']
      (by decide) (by decide) (by decide) (by decide)⟩

/-- C10 as stated is false: in the excerpt `<\nx<y>` the whole string is
an angle-bracket-delimited tag whose text `\nx<y` has a newline between
the `<` and the closing `>`, yet the stripping pass removes its `<y>`
part, leaving `<\nx`, so that tag does not appear verbatim in the
stripped excerpt. -/
theorem stripTags_multiline_tag_counterexample :
    "<\nx<y>".data = [] ++ '<' :: (['\n', 'x', '<', 'y'] ++ '>' :: [])
    ∧ '\n' ∈ ['\n', 'x', '<', 'y']
    ∧ '>' ∉ ['\n', 'x', '<', 'y']
    ∧ stripTags "<\nx<y>" = "<\nx"
    ∧ ¬ ('<' :: (['\n', 'x', '<', 'y'] ++ ['>'])
        <:+: (stripTags "<\nx<y>").data) :=
  ⟨by decide, by decide, by decide, rfl, by decide⟩

/-- If any article in the index fails to render, the whole loop fails. -/
theorem renderItems_none {home_url contact author : String}
    {store : List (String × ContentItem)} {a : String} :
    ∀ {arts : List String}, a ∈ arts →
      renderItem home_url contact author store a = none →
      renderItems home_url contact author store arts = none := by
  intro arts
  induction arts with
  | nil => intro h; cases h
  | cons b rest ih =>
    intro hmem hfa
    cases List.mem_cons.mp hmem with
    | inl h =>
      subst h
      simp [renderItems, hfa]
    | inr h =>
      cases hfb : renderItem home_url contact author store b with
      | none => simp [renderItems, hfb]
      | some v => simp [renderItems, hfb, ih h hfa]

/-- C3: the builder is fatal on missing or malformed input: a missing
configuration key makes `generate_rss` raise; an article that fails to
render (in particular one with a missing metadata field or an
unparseable date) makes `generate_rss` raise; a missing item field or a
date rejected by the `day.month.year` parser makes the item raise; and
the ISO-style string `2024-02-01` is rejected by the parser.  A raised
error is the `none` result: no partial feed is stored and no silently
wrong date is emitted. -/
theorem generate_rss_fatal_on_bad_input (now : PyDateTime) (lste : Lste) :
    ((List.lookup "title" lste.config_file.lste = none
      ∨ List.lookup "description" lste.config_file.lste = none
      ∨ List.lookup "home_url" lste.config_file.rss = none
      ∨ List.lookup "language" lste.config_file.rss = none
      ∨ List.lookup "contact" lste.config_file.rss = none
      ∨ List.lookup "author" lste.config_file.rss = none
      ∨ List.lookup "image" lste.config_file.rss = none) →
      generate_rss now lste = none)
    ∧ (∀ home_url contact author,
        List.lookup "home_url" lste.config_file.rss = some home_url →
        List.lookup "contact" lste.config_file.rss = some contact →
        List.lookup "author" lste.config_file.rss = some author →
        ∀ a ∈ lste.articles,
          renderItem home_url contact author lste.content a = none →
          generate_rss now lste = none)
    ∧ (∀ (home_url contact author article : String)
        (store : List (String × ContentItem)) (item : ContentItem),
        List.lookup article store = some item →
        (List.lookup "excerpt" item.fields = none
          ∨ List.lookup "title" item.fields = none
          ∨ List.lookup "date" item.meta = none
          ∨ List.lookup "permalink" item.meta = none
          ∨ ∃ dateStr, List.lookup "date" item.meta = some dateStr
              ∧ strptimeDMY dateStr = none) →
        renderItem home_url contact author store article = none)
    ∧ (∀ (home_url contact author article : String)
        (store : List (String × ContentItem)),
        List.lookup article store = none →
        renderItem home_url contact author store article = none)
    ∧ strptimeDMY "2024-02-01" = none := by
  refine ⟨?_, ?_, ?_, ?_, rfl⟩
  · intro h
    rcases h with h | h | h | h | h | h | h
    · simp [generate_rss, h]
    · cases h1 : List.lookup "title" lste.config_file.lste <;>
        simp [generate_rss, h1, h]
    · cases h1 : List.lookup "title" lste.config_file.lste <;>
        cases h2 : List.lookup "description" lste.config_file.lste <;>
          simp [generate_rss, h1, h2, h]
    · cases h1 : List.lookup "title" lste.config_file.lste <;>
        cases h2 : List.lookup "description" lste.config_file.lste <;>
          cases h3 : List.lookup "home_url" lste.config_file.rss <;>
            simp [generate_rss, h1, h2, h3, h]
    · cases h1 : List.lookup "title" lste.config_file.lste <;>
        cases h2 : List.lookup "description" lste.config_file.lste <;>
          cases h3 : List.lookup "home_url" lste.config_file.rss <;>
            cases h4 : List.lookup "language" lste.config_file.rss <;>
              simp [generate_rss, h1, h2, h3, h4, h]
    · cases h1 : List.lookup "title" lste.config_file.lste <;>
        cases h2 : List.lookup "description" lste.config_file.lste <;>
          cases h3 : List.lookup "home_url" lste.config_file.rss <;>
            cases h4 : List.lookup "language" lste.config_file.rss <;>
              cases h5 : List.lookup "contact" lste.config_file.rss <;>
                simp [generate_rss, h1, h2, h3, h4, h5, h]
    · cases h1 : List.lookup "title" lste.config_file.lste <;>
        cases h2 : List.lookup "description" lste.config_file.lste <;>
          cases h3 : List.lookup "home_url" lste.config_file.rss <;>
            cases h4 : List.lookup "language" lste.config_file.rss <;>
              cases h5 : List.lookup "contact" lste.config_file.rss <;>
                cases h6 : List.lookup "author" lste.config_file.rss <;>
                  simp [generate_rss, h1, h2, h3, h4, h5, h6, h]
  · intro home_url contact author h3 h5 h6 a hmem hnone
    have hri : renderItems home_url contact author lste.content
        lste.articles = none := renderItems_none hmem hnone
    cases h1 : List.lookup "title" lste.config_file.lste <;>
      cases h2 : List.lookup "description" lste.config_file.lste <;>
        cases h4 : List.lookup "language" lste.config_file.rss <;>
          cases h7 : List.lookup "image" lste.config_file.rss <;>
            simp [generate_rss, h1, h2, h3, h4, h5, h6, h7, hri]
  · intro home_url contact author article store item hitem h
    rcases h with h | h | h | h | ⟨ds, hds, hbad⟩
    · simp [renderItem, hitem, h]
    · cases hex : List.lookup "excerpt" item.fields <;>
        cases hdt : List.lookup "date" item.meta
      · simp [renderItem, hitem, hex]
      · simp [renderItem, hitem, hex]
      · simp [renderItem, hitem, hex, hdt]
      · rename_i ds
        cases hp : strptimeDMY ds <;>
          simp [renderItem, hitem, hex, hdt, hp, h]
    · cases hex : List.lookup "excerpt" item.fields <;>
        simp [renderItem, hitem, hex, h]
    · cases hex : List.lookup "excerpt" item.fields <;>
        cases hdt : List.lookup "date" item.meta
      · simp [renderItem, hitem, hex]
      · simp [renderItem, hitem, hex]
      · simp [renderItem, hitem, hex, hdt]
      · rename_i ds
        cases hp : strptimeDMY ds <;>
          cases hti : List.lookup "title" item.fields <;>
            simp [renderItem, hitem, hex, hdt, hp, hti, h]
    · cases hex : List.lookup "excerpt" item.fields <;>
        simp [renderItem, hitem, hex, hds, hbad]
  · intro home_url contact author article store h
    simp [renderItem, h]

/-- Witness for C3: a missing `title` key and an ISO-style date each
make the build fail outright. -/
theorem generate_rss_fatal_on_bad_input_witness :
    generate_rss exampleNow missingTitleLste = none
    ∧ generate_rss exampleNow badDateLste = none
    ∧ strptimeDMY "2024-02-01" = none :=
  ⟨(generate_rss_fatal_on_bad_input exampleNow missingTitleLste).1
      (Or.inl rfl),
    (generate_rss_fatal_on_bad_input exampleNow badDateLste).2.1
      "https://example.com" "a@b.com" "A" rfl rfl rfl "hello"
      (List.mem_singleton.mpr rfl) rfl,
    (generate_rss_fatal_on_bad_input exampleNow exampleLste).2.2.2.2⟩

/-- The scan decides the contiguous-substring relation. -/
theorem hasSub_iff (needle : List Char) :
    ∀ hay, hasSub needle hay = true ↔ needle <:+: hay := by
  intro hay
  induction hay with
  | nil => simp [hasSub, List.isEmpty_iff]
  | cons c rest ih =>
    simp [hasSub, Bool.or_eq_true, List.isPrefixOf_iff_prefix, ih,
      List.infix_cons_iff]

/-- C4 concerns a divergence between builder and writer: the channel's
`rel="self"` link points at `home_url/rss.xml` (source line 73), but the
writer stores the document at `feed.xml` (source line 136).  On the
concrete test scenario the produced feed contains the `rss.xml`
self-link and contains no occurrence of `feed.xml` (or of the full
`https://example.com/feed.xml` location) at all, while the writer does
write to the path ending in `/feed.xml`: the self-referential link never
refers to the artifact that is produced. -/
theorem atom_self_link_does_not_match_written_file :
    generate_rss exampleNow exampleLste
      = some { exampleLste with
          plugin_vars_rss := some (exampleFeed exampleNow) }
    ∧ occursIn "<atom:link href=\"https://example.com/rss.xml\" rel=\"self\" type=\"application/rss+xml\"/>"
        (exampleFeed exampleNow)
    ∧ ¬ occursIn "https://example.com/feed.xml" (exampleFeed exampleNow)
    ∧ ¬ occursIn "feed.xml" (exampleFeed exampleNow)
    ∧ (∀ fs : FileSystem, ∃ fs2,
        save_rss_file { exampleLste with
            plugin_vars_rss := some (exampleFeed exampleNow) } fs
          = some ({ exampleLste with
              plugin_vars_rss := some (exampleFeed exampleNow) }, fs2)
        ∧ fs2 ("/srv/site/dist" ++ "/feed.xml")
            = some (exampleFeed exampleNow)) := by
  refine ⟨rfl, ?_, ?_, ?_, ?_⟩
  · exact (hasSub_iff _ _).mp rfl
  · intro h
    have h2 := (hasSub_iff _ _).mpr h
    rw [show hasSub "https://example.com/feed.xml".data
        (exampleFeed exampleNow).data = false from rfl] at h2
    cases h2
  · intro h
    have h2 := (hasSub_iff _ _).mpr h
    rw [show hasSub "feed.xml".data (exampleFeed exampleNow).data = false
        from rfl] at h2
    cases h2
  · intro fs
    exact ⟨fun p => if p = "/srv/site/dist" ++ "/feed.xml"
        then some (exampleFeed exampleNow) else fs p, rfl, if_pos rfl⟩

/-- C5: for every valid configuration the channel block contains the
build timestamp for the current instant (rendered with the literal
`+0000` offset), the `LSTE <version>` generator identifier, the fixed
`hourly`/`1` cadence literals, `managingEditor` and `webMaster` both as
`contact (author)`, and the image block with the configured url, site
title, home link and fixed width and height 32; and the feed stored by
`generate_rss` is the root element followed by exactly this channel
block. -/
theorem generate_rss_channel_metadata
    (now : PyDateTime) (lste : Lste)
    (title description home_url language contact author image
      items : String)
    (h1 : List.lookup "title" lste.config_file.lste = some title)
    (h2 : List.lookup "description" lste.config_file.lste = some description)
    (h3 : List.lookup "home_url" lste.config_file.rss = some home_url)
    (h4 : List.lookup "language" lste.config_file.rss = some language)
    (h5 : List.lookup "contact" lste.config_file.rss = some contact)
    (h6 : List.lookup "author" lste.config_file.rss = some author)
    (h7 : List.lookup "image" lste.config_file.rss = some image)
    (h8 : renderItems home_url contact author lste.content lste.articles
        = some items) :
    ∃ ch, ch = channelXml title home_url description (strftimeRss now)
        language lste.version contact author image
      ∧ generate_rss now lste = some { lste with plugin_vars_rss := some (rssOpen
          ++ ch ++ items ++ "</channel></rss>") }
      ∧ occursIn ("<lastBuildDate>" ++ strftimeRss now
          ++ "</lastBuildDate>") ch
      ∧ (∃ p, strftimeRss now = p ++ " +0000")
      ∧ occursIn ("<generator>LSTE " ++ lste.version ++ "</generator>") ch
      ∧ occursIn "<sy:updatePeriod>hourly</sy:updatePeriod>" ch
      ∧ occursIn "<sy:updateFrequency>1</sy:updateFrequency>" ch
      ∧ occursIn ("<managingEditor>" ++ contact ++ " (" ++ author
          ++ ")</managingEditor>") ch
      ∧ occursIn ("<webMaster>" ++ contact ++ " (" ++ author
          ++ ")</webMaster>") ch
      ∧ occursIn ("<image>\n                <url>" ++ image
          ++ "</url>\n                <title>" ++ title
          ++ "</title>\n                <link>" ++ home_url
          ++ "</link>\n                <width>32</width>\n                <height>32</height>\n            </image>")
          ch := by
  refine ⟨channelXml title home_url description (strftimeRss now) language
    lste.version contact author image, rfl, ?_, ?_, ⟨_, rfl⟩, ?_, ?_, ?_,
    ?_, ?_, ?_⟩
  · simp [generate_rss, h1, h2, h3, h4, h5, h6, h7, h8]
  all_goals
    unfold channelXml
    repeat first
      | exact occursIn_append_right _ (occursIn_refl _)
      | apply occursIn_append_left

/-- Witness for C5 at the concrete test scenario. -/
theorem generate_rss_channel_metadata_witness :
    ∃ ch, ch = channelXml "My Site" "https://example.com" "Desc"
        (strftimeRss exampleNow) "en-us" "1.2" "a@b.com" "A"
        "https://example.com/i.png"
      ∧ generate_rss exampleNow exampleLste = some { exampleLste with plugin_vars_rss := some (rssOpen
          ++ ch ++ exampleItemBlock ++ "</channel></rss>") }
      ∧ occursIn ("<lastBuildDate>" ++ strftimeRss exampleNow
          ++ "</lastBuildDate>") ch
      ∧ (∃ p, strftimeRss exampleNow = p ++ " +0000")
      ∧ occursIn ("<generator>LSTE " ++ "1.2" ++ "</generator>") ch
      ∧ occursIn "<sy:updatePeriod>hourly</sy:updatePeriod>" ch
      ∧ occursIn "<sy:updateFrequency>1</sy:updateFrequency>" ch
      ∧ occursIn ("<managingEditor>" ++ "a@b.com" ++ " (" ++ "A"
          ++ ")</managingEditor>") ch
      ∧ occursIn ("<webMaster>" ++ "a@b.com" ++ " (" ++ "A"
          ++ ")</webMaster>") ch
      ∧ occursIn ("<image>\n                <url>" ++ "https://example.com/i.png"
          ++ "</url>\n                <title>" ++ "My Site"
          ++ "</title>\n                <link>" ++ "https://example.com"
          ++ "</link>\n                <width>32</width>\n                <height>32</height>\n            </image>")
          ch :=
  generate_rss_channel_metadata exampleNow exampleLste "My Site" "Desc"
    "https://example.com" "en-us" "a@b.com" "A" "https://example.com/i.png"
    exampleItemBlock rfl rfl rfl rfl rfl rfl rfl rfl

/-- C6: the writer stores the scratch string verbatim at
`dist_path/feed.xml`, replacing whatever that path held, leaves every
other path untouched, a second write fully replaces the first, and the
builder overwrites (never merges) the scratch slot: its result is
independent of any previous scratch value. -/
theorem save_rss_file_overwrites (lste : Lste) (fs : FileSystem)
    (r : String) (h : lste.plugin_vars_rss = some r) :
    ∃ fs2, save_rss_file lste fs = some (lste, fs2)
      ∧ fs2 (lste.dist_path ++ "/feed.xml") = some r
      ∧ (∀ p, p ≠ lste.dist_path ++ "/feed.xml" → fs2 p = fs p)
      ∧ (∀ (lste2 : Lste) (r2 : String),
          lste2.plugin_vars_rss = some r2 →
          lste2.dist_path = lste.dist_path →
          ∃ fs3, save_rss_file lste2 fs2 = some (lste2, fs3)
            ∧ fs3 (lste.dist_path ++ "/feed.xml") = some r2)
      ∧ (∀ (now : PyDateTime) (l : Lste) (prev : Option String),
          generate_rss now { l with plugin_vars_rss := prev }
            = generate_rss now l) := by
  refine ⟨fun p => if p = lste.dist_path ++ "/feed.xml" then some r
      else fs p, ?_, if_pos rfl, ?_, ?_, ?_⟩
  · simp [save_rss_file, h]
  · intro p hp
    exact if_neg hp
  · intro lste2 r2 h2 hd
    refine ⟨fun p => if p = lste2.dist_path ++ "/feed.xml" then some r2
        else if p = lste.dist_path ++ "/feed.xml" then some r else fs p,
      ?_, ?_⟩
    · simp only [save_rss_file, h2, Option.some_bind]
    · simp [hd]
  · intro now l prev
    rfl

/-- Witness for C6 at a concrete context and the empty filesystem. -/
theorem save_rss_file_overwrites_witness :
    ∃ fs2, save_rss_file savedLste (fun _ => none) = some (savedLste, fs2)
      ∧ fs2 (savedLste.dist_path ++ "/feed.xml") = some "FEED-A"
      ∧ (∀ p, p ≠ savedLste.dist_path ++ "/feed.xml" → fs2 p = none)
      ∧ (∀ (lste2 : Lste) (r2 : String),
          lste2.plugin_vars_rss = some r2 →
          lste2.dist_path = savedLste.dist_path →
          ∃ fs3, save_rss_file lste2 fs2 = some (lste2, fs3)
            ∧ fs3 (savedLste.dist_path ++ "/feed.xml") = some r2)
      ∧ (∀ (now : PyDateTime) (l : Lste) (prev : Option String),
          generate_rss now { l with plugin_vars_rss := prev }
            = generate_rss now l) :=
  save_rss_file_overwrites savedLste (fun _ => none) "FEED-A" rfl

/-- C8: the builder returns the very context it was given, with every
field untouched except the scratch slot, which afterwards holds the
feed string. -/
theorem generate_rss_only_mutates_scratch (now : PyDateTime)
    (lste l2 : Lste) (h : generate_rss now lste = some l2) :
    l2.version = lste.version ∧ l2.config_file = lste.config_file
    ∧ l2.content = lste.content ∧ l2.articles = lste.articles
    ∧ l2.dist_path = lste.dist_path
    ∧ ∃ feed, l2.plugin_vars_rss = some feed := by
  simp only [generate_rss, Option.bind_eq_some, Option.some.injEq] at h
  obtain ⟨t, h1, d, h2, hu, h3, lg, h4, ct, h5, au, h6, im, h7, its, h8,
    hl⟩ := h
  subst hl
  exact ⟨rfl, rfl, rfl, rfl, rfl, ⟨_, rfl⟩⟩

/-- Witness for C8 at the concrete test scenario. -/
theorem generate_rss_only_mutates_scratch_witness :
    builtLste.version = exampleLste.version
    ∧ builtLste.config_file = exampleLste.config_file
    ∧ builtLste.content = exampleLste.content
    ∧ builtLste.articles = exampleLste.articles
    ∧ builtLste.dist_path = exampleLste.dist_path
    ∧ ∃ feed, builtLste.plugin_vars_rss = some feed :=
  generate_rss_only_mutates_scratch exampleNow exampleLste builtLste rfl

/-- C9: invoked without a prior build, the writer's scratch lookup
raises before the output file is opened: the call yields no new
filesystem, so `feed.xml` is neither created nor modified. -/
theorem save_rss_file_raises_without_scratch (lste : Lste)
    (fs : FileSystem) (h : lste.plugin_vars_rss = none) :
    save_rss_file lste fs = none := by
  simp [save_rss_file, h]

/-- Witness for C9: the scenario context before any build has an empty
scratch slot and the writer raises. -/
theorem save_rss_file_raises_without_scratch_witness :
    save_rss_file exampleLste (fun _ => none) = none :=
  save_rss_file_raises_without_scratch exampleLste (fun _ => none) rfl
